import Mathlib

/-!
Shallow embedding of the MCP client supervisor from `src/lib/mcp-client.js`
(class `MCPClient`): the data model (servers map, pending-request tables,
metrics, catalogs) and the operations the specification talks about
(`sendRequestToServer`, the stdout handler, the request timeout timer, the
exit/reconnect handler, `aggregateToolsAndResources`, `findToolServer`,
`findResourceServer`, `disconnect`, `getMetrics`).  Machine integers are
modelled as `Nat`; latencies and the rolling average as exact rationals;
JavaScript `Map`s as association lists in insertion order.
-/

/-- JSON values, the wire format decoded by `JSON.parse` in the stdout
handler.  The codec below models `JSON.parse` on the message subset the
protocol uses: objects, arrays, escape-free strings, integer numbers,
booleans and null, with trailing non-whitespace rejected. -/
inductive Json where
  | null : Json
  | bool (b : Bool) : Json
  | num (n : Int) : Json
  | str (s : String) : Json
  | arr (elems : List Json) : Json
  | obj (fields : List (String × Json)) : Json

/-- JSON whitespace. -/
def isWs (c : Char) : Bool :=
  c = ' ' || c = '\n' || c = '\t' || c = '\r'

/-- Drop leading whitespace. -/
def skipWs : List Char → List Char
  | [] => []
  | c :: cs => if isWs c then skipWs cs else c :: cs

/-- Parse the body of a JSON string after the opening quote, up to the
closing quote.  Escape sequences are outside the modelled subset. -/
def parseStringBody : List Char → Option (List Char × List Char)
  | [] => none
  | c :: cs =>
    if c = '"' then some ([], cs)
    else if c = '\\' then none
    else
      match parseStringBody cs with
      | some (s, rest) => some (c :: s, rest)
      | none => none

/-- Strip an expected literal (such as `true`) from the input. -/
def stripLit : List Char → List Char → Option (List Char)
  | [], cs => some cs
  | _ :: _, [] => none
  | e :: es, c :: cs => if c = e then stripLit es cs else none

/-- Decimal value of a digit character. -/
def digitVal (c : Char) : Nat := c.toNat - 48

/-- Parse a nonempty run of decimal digits. -/
def parseNatNum (cs : List Char) : Option (Nat × List Char) :=
  let p := cs.span Char.isDigit
  if p.1.isEmpty then none
  else some (p.1.foldl (fun a c => a * 10 + digitVal c) 0, p.2)

mutual

/-- Parse one JSON value, returning it with the unconsumed input.  `fuel`
bounds recursion depth; `parseJsonList` supplies more fuel than any input
can use. -/
def parseValue : Nat → List Char → Option (Json × List Char)
  | 0, _ => none
  | fuel + 1, cs =>
    match skipWs cs with
    | [] => none
    | c :: rest =>
      if c = '"' then
        match parseStringBody rest with
        | some (s, r) => some (Json.str (String.mk s), r)
        | none => none
      else if c = '{' then
        parseMembers fuel (skipWs rest) true
      else if c = '[' then
        parseElems fuel (skipWs rest) true
      else if c = 't' then
        (stripLit ['r', 'u', 'e'] rest).map (fun r => (Json.bool true, r))
      else if c = 'f' then
        (stripLit ['a', 'l', 's', 'e'] rest).map (fun r => (Json.bool false, r))
      else if c = 'n' then
        (stripLit ['u', 'l', 'l'] rest).map (fun r => (Json.null, r))
      else if c = '-' then
        (parseNatNum rest).map (fun p => (Json.num (-(p.1 : Int)), p.2))
      else if c.isDigit then
        (parseNatNum (c :: rest)).map (fun p => (Json.num (p.1 : Int), p.2))
      else none

/-- Parse the members of a JSON object after the opening brace; `first`
is true when no member has been consumed yet. -/
def parseMembers : Nat → List Char → Bool → Option (Json × List Char)
  | 0, _, _ => none
  | fuel + 1, cs, first =>
    match skipWs cs with
    | [] => none
    | c :: rest =>
      if c = '}' then
        if first then some (Json.obj [], rest) else none
      else if c = '"' then
        match parseStringBody rest with
        | none => none
        | some (k, afterKey) =>
          match skipWs afterKey with
          | ':' :: afterColon =>
            match parseValue fuel afterColon with
            | none => none
            | some (v, afterVal) =>
              match skipWs afterVal with
              | ',' :: afterComma =>
                match parseMembers fuel afterComma false with
                | some (Json.obj fields, r) =>
                  some (Json.obj ((String.mk k, v) :: fields), r)
                | _ => none
              | '}' :: r => some (Json.obj [(String.mk k, v)], r)
              | _ => none
          | _ => none
      else none

/-- Parse the elements of a JSON array after the opening bracket. -/
def parseElems : Nat → List Char → Bool → Option (Json × List Char)
  | 0, _, _ => none
  | fuel + 1, cs, first =>
    match skipWs cs with
    | [] => none
    | c :: rest =>
      if c = ']' then
        if first then some (Json.arr [], rest) else none
      else
        match parseValue fuel (c :: rest) with
        | none => none
        | some (v, afterVal) =>
          match skipWs afterVal with
          | ',' :: afterComma =>
            match parseElems fuel afterComma false with
            | some (Json.arr elems, r) => some (Json.arr (v :: elems), r)
            | _ => none
          | ']' :: r => some (Json.arr [v], r)
          | _ => none

end

/-- Decode a whole input as a single JSON document, as `JSON.parse` does:
one value, with nothing but whitespace allowed after it. -/
def parseJsonList (cs : List Char) : Option Json :=
  match parseValue (cs.length + 1) cs with
  | some (j, rest) => if (skipWs rest).isEmpty then some j else none
  | none => none

/-- JavaScript `String.prototype.trim`: drop whitespace from both ends. -/
def trimChars (cs : List Char) : List Char :=
  ((skipWs cs).reverse |> skipWs).reverse

/-- Split on newline characters, as the spec's line-splitting handler
would (`chunk.split` on a newline). -/
def splitLines : List Char → List (List Char)
  | [] => [[]]
  | c :: cs =>
    match splitLines cs with
    | [] => [[c]]
    | l :: ls => if c = '\n' then [] :: l :: ls else (c :: l) :: ls

/-- One tool entry of a worker's catalog (`server.tools` elements). -/
structure Tool where
  name : String
  description : String
deriving DecidableEq

/-- One resource entry of a worker's catalog (`server.resources` elements). -/
structure MCPResource where
  uri : String
  name : String
deriving DecidableEq

/-- State of a worker's child process: not yet spawned (`server.process`
is null), spawned and running, or killed by `process.kill()`. -/
inductive ProcState where
  | noProcess : ProcState
  | running : ProcState
  | killed : ProcState
deriving DecidableEq

/-- The `this.metrics` record of the client.  Latencies and the rolling
average are exact rationals. -/
structure Metrics where
  totalRequests : Nat
  successfulRequests : Nat
  failedRequests : Nat
  averageResponseTime : ℚ
  responseTimes : List ℚ
deriving DecidableEq

/-- `this.metrics` as initialised in the constructor. -/
def initialMetrics : Metrics :=
  { totalRequests := 0, successfulRequests := 0, failedRequests := 0,
    averageResponseTime := 0, responseTimes := [] }

/-- The `this.config` record (times in milliseconds). -/
structure Config where
  timeout : Nat
  debug : Bool
  autoReconnect : Bool
  maxReconnectAttempts : Nat
  reconnectDelay : Nat
  startupDelay : Nat
deriving DecidableEq

/-- Defaults applied by the constructor when an option is absent. -/
def defaultConfig : Config :=
  { timeout := 10000, debug := false, autoReconnect := false,
    maxReconnectAttempts := 3, reconnectDelay := 1000, startupDelay := 1000 }

/-- One worker's `serverConfig` entry in `this.servers`: process handle,
pending-request table (JavaScript `Map` keyed by correlation id, kept in
insertion order), capability lists, connection flag, reconnect counter and
per-worker option overrides. -/
structure ServerEntry where
  path : String
  workingDir : String
  proc : ProcState
  pendingRequests : List Nat
  tools : List Tool
  resources : List MCPResource
  connected : Bool
  reconnectAttempts : Nat
  optTimeout : Nat
  optMaxReconnectAttempts : Nat
deriving DecidableEq

/-- Events the client emits that the claims mention: the non-fatal
`error` event for an undecodable stdout chunk, and the resolution of a
pending request (its `resolve` callback firing). -/
inductive WEvent where
  | errorEvent (server : String) : WEvent
  | resolved (server : String) (id : Nat) : WEvent
deriving DecidableEq

/-- The `MCPClient` instance state. `servers` models `this.servers`
(a `Map`, iterated in insertion order); `writes` logs every line written
to a worker's stdin as (worker, correlation id, method);
`healthCheckActive` models `this.healthCheckInterval` being non-null. -/
structure ClientState where
  servers : List (String × ServerEntry)
  allTools : List (String × Tool)
  allResources : List (String × MCPResource)
  messageId : Nat
  isConnected : Bool
  config : Config
  healthStatus : List (String × Bool)
  healthCheckActive : Bool
  metrics : Metrics
  writes : List (String × Nat × String)
deriving DecidableEq

/-- The constructor. -/
def initClient (cfg : Config) : ClientState :=
  { servers := [], allTools := [], allResources := [], messageId := 1,
    isConnected := false, config := cfg, healthStatus := [],
    healthCheckActive := false, metrics := initialMetrics, writes := [] }

/-- First-match association lookup, the model of `Map.prototype.get`. -/
def lookupSrv (name : String) : List (String × ServerEntry) → Option ServerEntry
  | [] => none
  | (k, v) :: rest => if name = k then some v else lookupSrv name rest

/-- Update the entry stored under `name`, the model of mutating the object
held in the `Map`. -/
def updateEntry (name : String) (f : ServerEntry → ServerEntry) :
    List (String × ServerEntry) → List (String × ServerEntry)
  | [] => []
  | (k, v) :: rest =>
    (if k = name then (k, f v) else (k, v)) :: updateEntry name f rest

/-- `updateEntry` lifted to the client state. -/
def updateSrv (name : String) (f : ServerEntry → ServerEntry) (st : ClientState) : ClientState :=
  { st with servers := updateEntry name f st.servers }

/-- `Map.prototype.set` on the health-status map. -/
def setHealth (name : String) (healthy : Bool) (st : ClientState) : ClientState :=
  { st with healthStatus :=
      if st.healthStatus.any (fun p => p.1 = name) then
        st.healthStatus.map (fun p => if p.1 = name then (p.1, healthy) else p)
      else st.healthStatus ++ [(name, healthy)] }

/-- `Map.prototype.set` on a pending-request table (append when the key is
new; ids come from a counter and never repeat, so overwriting keeps the
table unchanged). -/
def pendingSet (l : List Nat) (id : Nat) : List Nat :=
  if id ∈ l then l else l ++ [id]

/-- `Map.prototype.delete` on a pending-request table. -/
def pendingDelete (l : List Nat) (id : Nat) : List Nat :=
  l.filter (fun k => k ≠ id)

/-- `addServer(name, serverPath, workingDir)`: registering a duplicate name
throws; otherwise a fresh disconnected entry is inserted and its health
record initialised. -/
def addServer (st : ClientState) (name path workingDir : String) : Except String ClientState :=
  if (lookupSrv name st.servers).isSome then
    Except.error ("Server with name " ++ name ++ " already exists")
  else
    Except.ok (setHealth name false
      { st with servers := st.servers ++
          [(name,
            { path := path, workingDir := workingDir, proc := ProcState.noProcess,
              pendingRequests := [], tools := [], resources := [],
              connected := false, reconnectAttempts := 0,
              optTimeout := st.config.timeout,
              optMaxReconnectAttempts := st.config.maxReconnectAttempts })] })

/-- The guard errors `sendRequestToServer` can throw before any request is
issued, and beyond them nothing: the source throws these synchronously,
before the metrics update, the id allocation and the stdin write. -/
inductive SendErr where
  | serverNotFound (name : String) : SendErr
  | notConnected (name : String) : SendErr
  | processNotStarted (name : String) : SendErr
deriving DecidableEq

/-- `sendRequestToServer(serverName, method, params, skipConnectionCheck)`,
up to and including the stdin write: the three guards (unknown worker,
connected-check unless exempted, process present), then
`totalRequests++`, allocation of `id = this.messageId++`, registration of
the PendingRequest under `id`, and the write of the encoded line.  The
returned value is the allocated correlation id; settlement (response,
timeout, then/catch) is modelled by the separate transition functions
below, as in the source it happens in later callbacks. -/
def sendRequestToServer (st : ClientState) (serverName method : String)
    (skipConnectionCheck : Bool) : ClientState × Except SendErr Nat :=
  match lookupSrv serverName st.servers with
  | none => (st, Except.error (SendErr.serverNotFound serverName))
  | some server =>
    if !skipConnectionCheck && !server.connected then
      (st, Except.error (SendErr.notConnected serverName))
    else if server.proc = ProcState.noProcess then
      (st, Except.error (SendErr.processNotStarted serverName))
    else
      let st1 := { st with metrics := { st.metrics with totalRequests := st.metrics.totalRequests + 1 } }
      let id := st1.messageId
      let st2 := { st1 with messageId := id + 1 }
      let st3 := updateSrv serverName
        (fun s => { s with pendingRequests := pendingSet s.pendingRequests id }) st2
      let st4 := { st3 with writes := st3.writes ++ [(serverName, id, method)] }
      (st4, Except.ok id)

/-- `callTool(serverName, toolName, args)` issues `tools/call` with the
connected-check in force (guard phase). -/
def callTool (st : ClientState) (serverName _toolName : String) : ClientState × Except SendErr Nat :=
  sendRequestToServer st serverName "tools/call" false

/-- `readResource(serverName, uri)` issues `resources/read` with the
connected-check in force (guard phase). -/
def readResource (st : ClientState) (serverName _uri : String) : ClientState × Except SendErr Nat :=
  sendRequestToServer st serverName "resources/read" false

/-- The error a timed-out caller is rejected with
(`Request timeout after <ms>ms`). -/
inductive RequestErr where
  | timeout (ms : Nat) : RequestErr
deriving DecidableEq

/-- The timeout timer body registered by `sendRequestToServer`: when the
id is still pending, the PendingRequest is deleted, `failedRequests` is
incremented and the caller's promise is rejected with the Timeout error
built from the worker's configured timeout; otherwise nothing happens.
The second component is the rejection handed to the caller, if any. -/
def timeoutFire (st : ClientState) (serverName : String) (id : Nat) :
    ClientState × Option RequestErr :=
  match lookupSrv serverName st.servers with
  | none => (st, none)
  | some server =>
    if id ∈ server.pendingRequests then
      let st1 := updateSrv serverName
        (fun s => { s with pendingRequests := pendingDelete s.pendingRequests id }) st
      let st2 := { st1 with metrics :=
        { st1.metrics with failedRequests := st1.metrics.failedRequests + 1 } }
      (st2, some (RequestErr.timeout server.optTimeout))
    else (st, none)

/-- The metrics update of the `.then` continuation of a request that
resolved: `successfulRequests++`, append the observed latency, recompute
the rolling average as sum over length of all recorded latencies. -/
def settleSuccess (m : Metrics) (latency : ℚ) : Metrics :=
  let rts := m.responseTimes ++ [latency]
  { m with successfulRequests := m.successfulRequests + 1,
           responseTimes := rts,
           averageResponseTime := rts.foldl (· + ·) 0 / (rts.length : ℚ) }

/-- The metrics update of the `.catch` continuation of a request whose
promise rejected: `failedRequests++` (on top of any increment the timer
itself already made). -/
def settleFailure (m : Metrics) : Metrics :=
  { m with failedRequests := m.failedRequests + 1 }

/-- The `.then` continuation at client level. -/
def requestThen (st : ClientState) (latency : ℚ) : ClientState :=
  { st with metrics := settleSuccess st.metrics latency }

/-- The `.catch` continuation at client level. -/
def requestCatch (st : ClientState) : ClientState :=
  { st with metrics := settleFailure st.metrics }

/-- `response.id` of a decoded message, when it is a nonnegative number:
the key looked up in the pending-request `Map`.  `none` models the
JavaScript `undefined`, which matches no key. -/
def jsonId : Json → Option Nat
  | Json.obj fields =>
    match fields.lookup "id" with
    | some (Json.num (Int.ofNat n)) => some n
    | _ => none
  | _ => none

/-- The body of the stdout handler after a successful `JSON.parse`
(the Request Correlator step): look the response id up in the worker's
pending table; when present, delete the entry and fire its `resolve`;
a response matching no pending entry is silently discarded. -/
def deliverResponse (st : ClientState) (serverName : String) (response : Json) :
    ClientState × List WEvent :=
  match lookupSrv serverName st.servers with
  | none => (st, [])
  | some server =>
    match jsonId response with
    | none => (st, [])
    | some id =>
      if id ∈ server.pendingRequests then
        (updateSrv serverName
          (fun s => { s with pendingRequests := pendingDelete s.pendingRequests id }) st,
         [WEvent.resolved serverName id])
      else (st, [])

/-- The stdout data handler wired in `connectToServer`: the WHOLE arriving
chunk is trimmed and decoded as a single JSON document; on success the
response is handed to the correlator, and on any decode failure a
non-fatal `error` event is emitted and the chunk discarded. -/
def handleStdoutChunk (st : ClientState) (serverName : String) (chunk : String) :
    ClientState × List WEvent :=
  match parseJsonList (trimChars chunk.data) with
  | some response => deliverResponse st serverName response
  | none => (st, [WEvent.errorEvent serverName])

/-- Modelled from the spec: the output-stream handling the specification
describes — "buffers arriving bytes and splits on line boundaries; each
complete line is decoded by the Wire Codec and handed to the Request
Correlator. Malformed lines are reported as a non-fatal worker error event
and discarded."  Present only to compare the spec's claimed handler with
the source handler `handleStdoutChunk`. -/
def specLineSplitHandler (st : ClientState) (serverName : String) (chunk : String) :
    ClientState × List WEvent :=
  (splitLines chunk.data).foldl
    (fun acc line =>
      match parseJsonList (trimChars line) with
      | some response =>
        let r := deliverResponse acc.1 serverName response
        (r.1, acc.2 ++ r.2)
      | none => (acc.1, acc.2 ++ [WEvent.errorEvent serverName]))
    (st, [])

/-- The `exit` handler wired in `connectToServer`: mark the worker
disconnected, record an unhealthy health status, and — when
`config.autoReconnect` holds and the attempt counter is still below the
worker's maximum — increment the counter and schedule exactly one
reconnect after `reconnectDelay * attempts` ms (the counter already
incremented).  The second component is the scheduled delay, if any. -/
def handleExit (st : ClientState) (serverName : String) : ClientState × Option Nat :=
  match lookupSrv serverName st.servers with
  | none => (st, none)
  | some server =>
    let st1 := updateSrv serverName (fun s => { s with connected := false }) st
    let st2 := setHealth serverName false st1
    if st.config.autoReconnect = true ∧
        server.reconnectAttempts < server.optMaxReconnectAttempts then
      let st3 := updateSrv serverName
        (fun s => { s with reconnectAttempts := s.reconnectAttempts + 1 }) st2
      (st3, some (st.config.reconnectDelay * (server.reconnectAttempts + 1)))
    else (st2, none)

/-- The success path of the startup callback in `connectToServer` plus
`initializeServer`: store the handshake catalogs, set
`server.connected = true`, reset `server.reconnectAttempts = 0`, and mark
the worker healthy. -/
def finishConnect (st : ClientState) (serverName : String)
    (tools : List Tool) (resources : List MCPResource) : ClientState :=
  setHealth serverName true
    (updateSrv serverName
      (fun s => { s with tools := tools, resources := resources,
                         connected := true, reconnectAttempts := 0 }) st)

/-- Stamp each of a worker's tool entries with its owning worker's name
(the object spread adding the `server` field). -/
def stampTools (serverName : String) (ts : List Tool) : List (String × Tool) :=
  ts.map (fun t => (serverName, t))

/-- Likewise for resources. -/
def stampResources (serverName : String) (rs : List MCPResource) : List (String × MCPResource) :=
  rs.map (fun r => (serverName, r))

/-- `aggregateToolsAndResources()`: reset both global catalogs and push,
for each registered worker in `Map` insertion (= registration) order, its
stamped tool and resource entries. -/
def aggregateToolsAndResources (st : ClientState) : ClientState :=
  { st with
    allTools := st.servers.foldl (fun acc p => acc ++ stampTools p.1 p.2.tools) [],
    allResources := st.servers.foldl (fun acc p => acc ++ stampResources p.1 p.2.resources) [] }

/-- `findToolServer(toolName)` body: iterate the servers map in insertion
order, returning the first worker any of whose tools bears the name. -/
def findToolServerAux (toolName : String) : List (String × ServerEntry) → Option String
  | [] => none
  | (name, server) :: rest =>
    if server.tools.any (fun t => t.name = toolName) then some name
    else findToolServerAux toolName rest

/-- `findToolServer(toolName)`. -/
def findToolServer (st : ClientState) (toolName : String) : Option String :=
  findToolServerAux toolName st.servers

/-- `findResourceServer(uri)` body. -/
def findResourceServerAux (uri : String) : List (String × ServerEntry) → Option String
  | [] => none
  | (name, server) :: rest =>
    if server.resources.any (fun r => r.uri = uri) then some name
    else findResourceServerAux uri rest

/-- `findResourceServer(uri)`. -/
def findResourceServer (st : ClientState) (uri : String) : Option String :=
  findResourceServerAux uri st.servers

/-- `stopHealthMonitoring()`. -/
def stopHealthMonitoring (st : ClientState) : ClientState :=
  { st with healthCheckActive := false }

/-- The per-worker body of `disconnect()`: `if (server.process)` kill the
process and clear the connected flag; nothing else on the entry — in
particular the pending-request table is left as it is. -/
def disconnectServer (s : ServerEntry) : ServerEntry :=
  if s.proc ≠ ProcState.noProcess then
    { s with proc := ProcState.killed, connected := false }
  else s

/-- The loop of `disconnect()` over the servers map. -/
def disconnectAll (l : List (String × ServerEntry)) : List (String × ServerEntry) :=
  l.map (fun p => (p.1, disconnectServer p.2))

/-- `disconnect()`: stop the health monitor, kill every spawned worker
process, and clear `isConnected`. -/
def disconnect (st : ClientState) : ClientState :=
  let st1 := stopHealthMonitoring st
  let st2 := { st1 with servers := disconnectAll st1.servers }
  { st2 with isConnected := false }

/-- `getMetrics()` returns a copy of the metrics record. -/
def getMetrics (st : ClientState) : Metrics :=
  st.metrics


/-! ## Basic lemmas about the map model -/

theorem lookupSrv_updateEntry_self (name : String) (f : ServerEntry → ServerEntry)
    (l : List (String × ServerEntry)) :
    lookupSrv name (updateEntry name f l) = (lookupSrv name l).map f := by
  induction l with
  | nil => rfl
  | cons p rest ih =>
    obtain ⟨k, v⟩ := p
    by_cases h : k = name
    · subst h
      simp only [updateEntry, if_true]
      simp [lookupSrv, ih]
    · have h2 : ¬ name = k := fun he => h he.symm
      simp only [updateEntry]
      rw [if_neg h]
      simp [lookupSrv, h2, ih]

theorem lookupSrv_updateEntry_other (m name : String) (f : ServerEntry → ServerEntry)
    (l : List (String × ServerEntry)) (h : m ≠ name) :
    lookupSrv m (updateEntry name f l) = lookupSrv m l := by
  induction l with
  | nil => rfl
  | cons p rest ih =>
    obtain ⟨k, v⟩ := p
    by_cases hk : k = name
    · subst hk
      simp only [updateEntry, if_true]
      simp [lookupSrv, h, ih]
    · simp only [updateEntry]
      rw [if_neg hk]
      simp [lookupSrv, ih]

theorem lookupSrv_disconnectAll (name : String) (l : List (String × ServerEntry)) :
    lookupSrv name (disconnectAll l) = (lookupSrv name l).map disconnectServer := by
  induction l with
  | nil => rfl
  | cons p rest ih =>
    obtain ⟨k, v⟩ := p
    simp only [disconnectAll, List.map_cons] at ih ⊢
    by_cases h : name = k
    · simp [lookupSrv, h]
    · simp only [lookupSrv, if_neg h]
      exact ih

/-! ## Concrete fixtures used by witnesses and counterexamples -/

/-- A connected worker with a running process and the given pending table
and catalogs, carrying the default per-worker option overrides. -/
def mkServer (pending : List Nat) (tools : List Tool) (resources : List MCPResource) :
    ServerEntry :=
  { path := "server.js", workingDir := ".", proc := ProcState.running,
    pendingRequests := pending, tools := tools, resources := resources,
    connected := true, reconnectAttempts := 0, optTimeout := 10000,
    optMaxReconnectAttempts := 3 }

/-- A client connected to two idle workers A and B. -/
def stAB : ClientState :=
  { initClient defaultConfig with
    servers := [("A", mkServer [] [] []), ("B", mkServer [] [] [])],
    isConnected := true }

/-! ## C1: correlation-id allocation -/

/-- C1 (counterexample): correlation ids are NOT allocated per worker.  In
the source a single shared counter `this.messageId` serves every worker,
so the first id worker B sees is 1 when nothing was sent to A before, but
2 when one request went to A first: the ids B sees depend on requests sent
to the other worker, refuting the claimed independence. -/
theorem correlation_ids_not_per_worker_cex :
    (sendRequestToServer stAB "B" "tools/call" false).2 = Except.ok 1
  ∧ (sendRequestToServer (sendRequestToServer stAB "A" "tools/call" false).1
        "B" "tools/call" false).2 = Except.ok 2
  ∧ (Except.ok 2 : Except SendErr Nat) ≠ Except.ok 1 := by
  refine ⟨rfl, rfl, ?_⟩
  simp

/-- C1 (amended): correlation ids are allocated from the single client-wide
counter `this.messageId`, shared by all workers: any two consecutive
successful sends — whatever workers they target — receive the consecutive
ids `messageId` and `messageId + 1`, and the counter advances by one per
send.  Hence ids are globally unique and strictly increasing (so in
particular unique and monotonically increasing per worker), but the ids
one worker sees are NOT independent of requests sent to other workers. -/
theorem correlation_ids_global_counter
    (st st₁ st₂ : ClientState) (w₁ w₂ m₁ m₂ : String) (sk₁ sk₂ : Bool) (id₁ id₂ : Nat)
    (h₁ : sendRequestToServer st w₁ m₁ sk₁ = (st₁, Except.ok id₁))
    (h₂ : sendRequestToServer st₁ w₂ m₂ sk₂ = (st₂, Except.ok id₂)) :
    id₁ = st.messageId ∧ id₂ = st.messageId + 1 ∧ id₁ < id₂ ∧
      st₂.messageId = st.messageId + 2 := by
  have key : ∀ (s s' : ClientState) (w m : String) (sk : Bool) (i : Nat),
      sendRequestToServer s w m sk = (s', Except.ok i) →
      i = s.messageId ∧ s'.messageId = s.messageId + 1 := by
    intro s s' w m sk i h
    unfold sendRequestToServer at h
    cases hl : lookupSrv w s.servers with
    | none => rw [hl] at h; simp at h
    | some server =>
      rw [hl] at h
      dsimp only at h
      split_ifs at h with hc hp
      · simp at h
      · simp at h
      · have h' := congrArg Prod.snd h
        have hst := congrArg Prod.fst h
        simp only at h' hst
        simp at h'
        refine ⟨h'.symm, ?_⟩
        rw [← hst]
        rfl
  obtain ⟨e₁, n₁⟩ := key st st₁ w₁ m₁ sk₁ id₁ h₁
  obtain ⟨e₂, n₂⟩ := key st₁ st₂ w₂ m₂ sk₂ id₂ h₂
  refine ⟨e₁, by omega, by omega, by omega⟩

/-- C1 witness: the amended theorem applied to the concrete two-worker
client, sending first to A and then to B. -/
theorem correlation_ids_global_counter_witness :
    1 = stAB.messageId ∧ 2 = stAB.messageId + 1 ∧ 1 < 2 ∧
      (sendRequestToServer (sendRequestToServer stAB "A" "tools/call" false).1
        "B" "tools/call" false).1.messageId = stAB.messageId + 2 :=
  correlation_ids_global_counter stAB
    (sendRequestToServer stAB "A" "tools/call" false).1
    (sendRequestToServer (sendRequestToServer stAB "A" "tools/call" false).1
      "B" "tools/call" false).1
    "A" "B" "tools/call" "tools/call" false false 1 2 rfl rfl

/-! ## C2: disconnect -/

/-- A client connected to worker A with one request (id 1) in flight and
some accumulated metrics, health monitoring running. -/
def stC2 : ClientState :=
  { initClient defaultConfig with
    servers := [("A", mkServer [1] [] [])],
    isConnected := true,
    healthCheckActive := true,
    metrics := { totalRequests := 7, successfulRequests := 4, failedRequests := 3,
                 averageResponseTime := 100, responseTimes := [100, 100, 100, 100] } }

/-- C2 (counterexample): `disconnect()` does NOT clear the pending-request
tables — after disconnecting `stC2`, worker A's table still holds id 1 —
and the in-flight caller is not left unresolved forever: its timeout timer
still fires and rejects it with the Timeout error.  Both contradict the
claim that the tables are cleared and that no caller is ever failed. -/
theorem disconnect_pending_not_cleared_cex :
    (lookupSrv "A" (disconnect stC2).servers).map ServerEntry.pendingRequests = some [1]
  ∧ (some [1] : Option (List Nat)) ≠ some []
  ∧ (timeoutFire (disconnect stC2) "A" 1).2 = some (RequestErr.timeout 10000) := by
  refine ⟨rfl, by simp, rfl⟩

/-- C2 (amended): `disconnect()` synchronously kills every spawned worker
process (no worker process is left running), marks every spawned worker
disconnected, stops the health monitor, and leaves every worker's
pending-request table exactly as it was — the in-flight callers are not
resolved or rejected by `disconnect` itself, but each still-pending id is
later rejected with its Timeout error when its timer fires — while
`getMetrics()` afterwards still returns the historical counts. -/
theorem disconnect_behavior (st : ClientState) :
    getMetrics (disconnect st) = getMetrics st
  ∧ (disconnect st).healthCheckActive = false
  ∧ (disconnect st).isConnected = false
  ∧ (∀ name s₀, lookupSrv name st.servers = some s₀ →
      lookupSrv name (disconnect st).servers = some (disconnectServer s₀)
      ∧ (disconnectServer s₀).pendingRequests = s₀.pendingRequests
      ∧ (disconnectServer s₀).proc ≠ ProcState.running
      ∧ (s₀.proc ≠ ProcState.noProcess → (disconnectServer s₀).proc = ProcState.killed)
      ∧ (s₀.proc ≠ ProcState.noProcess → (disconnectServer s₀).connected = false))
  ∧ ∀ name s₀ id, lookupSrv name st.servers = some s₀ → id ∈ s₀.pendingRequests →
      (timeoutFire (disconnect st) name id).2 = some (RequestErr.timeout s₀.optTimeout) := by
  refine ⟨rfl, rfl, rfl, ?_, ?_⟩
  · intro name s₀ h
    have hl : lookupSrv name (disconnect st).servers = some (disconnectServer s₀) := by
      show lookupSrv name (disconnectAll st.servers) = _
      rw [lookupSrv_disconnectAll, h]
      rfl
    refine ⟨hl, ?_, ?_, ?_, ?_⟩
    · unfold disconnectServer
      split_ifs <;> rfl
    · unfold disconnectServer
      split_ifs with hp
      · simp
      · simp at hp
        rw [hp]
        simp
    · intro hp
      unfold disconnectServer
      rw [if_pos hp]
    · intro hp
      unfold disconnectServer
      rw [if_pos hp]
  · intro name s₀ id h hid
    have hl : lookupSrv name (disconnect st).servers = some (disconnectServer s₀) := by
      show lookupSrv name (disconnectAll st.servers) = _
      rw [lookupSrv_disconnectAll, h]
      rfl
    have hpend : (disconnectServer s₀).pendingRequests = s₀.pendingRequests := by
      unfold disconnectServer
      split_ifs <;> rfl
    have hto : (disconnectServer s₀).optTimeout = s₀.optTimeout := by
      unfold disconnectServer
      split_ifs <;> rfl
    unfold timeoutFire
    rw [hl]
    dsimp only
    rw [hpend, hto, if_pos hid]

/-- C2 witness: the amended theorem applied to the in-flight client
`stC2`, whose worker A has id 1 pending. -/
theorem disconnect_behavior_witness :
    lookupSrv "A" stC2.servers = some (mkServer [1] [] [])
  ∧ getMetrics (disconnect stC2) = getMetrics stC2
  ∧ lookupSrv "A" (disconnect stC2).servers = some (disconnectServer (mkServer [1] [] []))
  ∧ (timeoutFire (disconnect stC2) "A" 1).2
      = some (RequestErr.timeout (mkServer [1] [] []).optTimeout) := by
  refine ⟨rfl, (disconnect_behavior stC2).1,
    ((disconnect_behavior stC2).2.2.2.1 "A" (mkServer [1] [] []) rfl).1,
    (disconnect_behavior stC2).2.2.2.2 "A" (mkServer [1] [] []) 1 rfl (by decide)⟩

/-! ## C3: request timeout -/

/-- C3: when the timeout timer of request `id` fires while `id` is still
pending on its worker, the PendingRequest is removed from that worker's
table, the caller is rejected with the Timeout error carrying the worker's
configured timeout, the worker's entry is otherwise untouched (same
process handle, connected flag, catalogs — the record update changes only
the pending table, and the process is never killed), every other worker's
entry is unchanged, and every other id pending on the same worker is still
pending and can still complete normally: a response line for it still
resolves it. -/
theorem timeout_isolated_rejection (st : ClientState) (name : String) (s : ServerEntry)
    (id : Nat) (hs : lookupSrv name st.servers = some s) (hid : id ∈ s.pendingRequests) :
    (timeoutFire st name id).2 = some (RequestErr.timeout s.optTimeout)
  ∧ lookupSrv name (timeoutFire st name id).1.servers
      = some { s with pendingRequests := pendingDelete s.pendingRequests id }
  ∧ id ∉ pendingDelete s.pendingRequests id
  ∧ (∀ id₂ ∈ s.pendingRequests, id₂ ≠ id → id₂ ∈ pendingDelete s.pendingRequests id)
  ∧ (∀ other, other ≠ name →
      lookupSrv other (timeoutFire st name id).1.servers = lookupSrv other st.servers)
  ∧ ∀ id₂ ∈ s.pendingRequests, id₂ ≠ id →
      (deliverResponse (timeoutFire st name id).1 name
        (Json.obj [("jsonrpc", Json.str "2.0"), ("id", Json.num (Int.ofNat id₂)),
          ("result", Json.num 0)])).2 = [WEvent.resolved name id₂] := by
  have e1 : (timeoutFire st name id).2 = some (RequestErr.timeout s.optTimeout) := by
    unfold timeoutFire
    rw [hs]
    dsimp only
    rw [if_pos hid]
  have e2 : (timeoutFire st name id).1.servers
      = updateEntry name
          (fun q => { q with pendingRequests := pendingDelete q.pendingRequests id })
          st.servers := by
    unfold timeoutFire
    rw [hs]
    dsimp only
    rw [if_pos hid]
    rfl
  have hl : lookupSrv name (timeoutFire st name id).1.servers
      = some { s with pendingRequests := pendingDelete s.pendingRequests id } := by
    rw [e2, lookupSrv_updateEntry_self, hs]
    rfl
  refine ⟨e1, hl, ?_, ?_, ?_, ?_⟩
  · simp [pendingDelete, List.mem_filter]
  · intro id₂ h2 hne
    simp only [pendingDelete, List.mem_filter]
    exact ⟨h2, by simpa using hne⟩
  · intro other hne
    rw [e2]
    exact lookupSrv_updateEntry_other other name _ st.servers hne
  · intro id₂ h2 hne
    have hmem : id₂ ∈ pendingDelete s.pendingRequests id := by
      simp only [pendingDelete, List.mem_filter]
      exact ⟨h2, by simpa using hne⟩
    have hj : jsonId (Json.obj [("jsonrpc", Json.str "2.0"),
        ("id", Json.num (Int.ofNat id₂)), ("result", Json.num 0)]) = some id₂ := rfl
    unfold deliverResponse
    rw [hl]
    dsimp only
    rw [hj]
    dsimp only
    rw [if_pos hmem]

/-- A client connected to worker A with ids 1 and 2 pending. -/
def stC3 : ClientState :=
  { initClient defaultConfig with
    servers := [("A", mkServer [1, 2] [] [])],
    isConnected := true }

/-- C3 witness: with ids 1 and 2 pending on worker A, timing request 1 out
rejects it with Timeout, and a response for id 2 still resolves id 2. -/
theorem timeout_isolated_rejection_witness :
    (timeoutFire stC3 "A" 1).2 = some (RequestErr.timeout 10000)
  ∧ 2 ∈ pendingDelete (mkServer [1, 2] [] []).pendingRequests 1
  ∧ (deliverResponse (timeoutFire stC3 "A" 1).1 "A"
      (Json.obj [("jsonrpc", Json.str "2.0"), ("id", Json.num (Int.ofNat 2)),
        ("result", Json.num 0)])).2 = [WEvent.resolved "A" 2] := by
  have h := timeout_isolated_rejection stC3 "A" (mkServer [1, 2] [] []) 1 rfl (by decide)
  exact ⟨h.1, h.2.2.2.1 2 (by decide) (by decide), h.2.2.2.2.2 2 (by decide) (by decide)⟩

/-! ## C4: request counters -/

/-- A client connected to one idle worker A. -/
def stC4 : ClientState :=
  { initClient defaultConfig with
    servers := [("A", mkServer [] [] [])],
    isConnected := true }

/-- C4 (failing input): one request sent to worker A that then times out.
The timer body increments `failedRequests` before rejecting the promise,
and the `.catch` continuation increments it again, so the single settled
request ends with `totalRequests = 1` but `failedRequests = 2`: the
appropriate counter is incremented twice, not exactly once, and
`totalRequests` no longer equals `successfulRequests + failedRequests`. -/
theorem timeout_double_counts_failed :
    (requestCatch (timeoutFire
        (sendRequestToServer stC4 "A" "tools/call" false).1 "A" 1).1).metrics.totalRequests = 1
  ∧ (requestCatch (timeoutFire
        (sendRequestToServer stC4 "A" "tools/call" false).1 "A" 1).1).metrics.successfulRequests = 0
  ∧ (requestCatch (timeoutFire
        (sendRequestToServer stC4 "A" "tools/call" false).1 "A" 1).1).metrics.failedRequests = 2
  ∧ (1 : Nat) ≠ 0 + 2 := by
  exact ⟨rfl, rfl, rfl, by decide⟩

/-! ## C5: catalog aggregation -/

theorem foldl_append_eq_bind {α β : Type} (l : List α) (f : α → List β) (acc : List β) :
    l.foldl (fun a p => a ++ f p) acc = acc ++ l.flatMap f := by
  induction l generalizing acc with
  | nil => simp
  | cons x rest ih =>
    simp only [List.foldl_cons, List.flatMap_cons]
    rw [ih, List.append_assoc]

/-- Worker A connected with tools a1, a2; worker B already initialized by
its handshake (one tool b1 stored) but since exited, so its connected
flag is false at aggregation time — reachable when B's process dies after
its own handshake while a sibling worker is still starting up. -/
def stC5cex : ClientState :=
  { initClient defaultConfig with
    servers :=
      [("A", mkServer [] [{ name := "a1", description := "" },
                          { name := "a2", description := "" }] []),
       ("B", { mkServer [] [{ name := "b1", description := "" }] [] with connected := false })],
    isConnected := true }

/-- C5 (counterexample): the aggregation loop iterates EVERY registered
worker with no check of the connected flag, so the disconnected worker
B's stamped tool still lands in the global catalog — a 3-entry catalog
where the claimed concatenation of currently-connected workers' entries
has only the 2 entries of A.  This refutes the claim that the catalog is
the concatenation of every currently-connected worker's entries. -/
theorem aggregate_includes_disconnected_cex :
    (aggregateToolsAndResources stC5cex).allTools
      = [("A", { name := "a1", description := "" }), ("A", { name := "a2", description := "" }),
         ("B", { name := "b1", description := "" })]
  ∧ (stC5cex.servers.filter (fun p => p.2.connected)).flatMap
        (fun p => stampTools p.1 p.2.tools)
      = [("A", { name := "a1", description := "" }), ("A", { name := "a2", description := "" })]
  ∧ (aggregateToolsAndResources stC5cex).allTools
      ≠ (stC5cex.servers.filter (fun p => p.2.connected)).flatMap
          (fun p => stampTools p.1 p.2.tools) := by
  refine ⟨rfl, rfl, by decide⟩

/-- C5 (amended): after `aggregateToolsAndResources()` runs, the global
tools catalog is exactly the concatenation, in worker registration order
(the `Map` insertion order) and preserving each worker's own entry order,
of EVERY registered worker's tool entries — connected or not — each
stamped with its owning worker's name; its length is the sum of all
workers' tool counts; every entry's stamp names a registered worker that
really owns that tool; and the same holds for resources.  In particular,
after connecting worker A exposing 2 operations and worker B exposing 3,
the catalog has exactly 5 correctly-stamped entries. -/
theorem aggregate_catalog_all_registered (st : ClientState) :
    (aggregateToolsAndResources st).allTools
      = st.servers.flatMap (fun p => stampTools p.1 p.2.tools)
  ∧ (aggregateToolsAndResources st).allResources
      = st.servers.flatMap (fun p => stampResources p.1 p.2.resources)
  ∧ (aggregateToolsAndResources st).allTools.length
      = (st.servers.map (fun p => p.2.tools.length)).sum
  ∧ (∀ e ∈ (aggregateToolsAndResources st).allTools, ∃ s, (e.1, s) ∈ st.servers ∧ e.2 ∈ s.tools)
  ∧ ∀ e ∈ (aggregateToolsAndResources st).allResources,
      ∃ s, (e.1, s) ∈ st.servers ∧ e.2 ∈ s.resources := by
  have ht : (aggregateToolsAndResources st).allTools
      = st.servers.flatMap (fun p => stampTools p.1 p.2.tools) := by
    show st.servers.foldl (fun acc p => acc ++ stampTools p.1 p.2.tools) [] = _
    rw [foldl_append_eq_bind]
    rfl
  have hr : (aggregateToolsAndResources st).allResources
      = st.servers.flatMap (fun p => stampResources p.1 p.2.resources) := by
    show st.servers.foldl (fun acc p => acc ++ stampResources p.1 p.2.resources) [] = _
    rw [foldl_append_eq_bind]
    rfl
  refine ⟨ht, hr, ?_, ?_, ?_⟩
  · rw [ht]
    simp [List.length_flatMap, stampTools, Function.comp_def, List.length_map]
  · intro e he
    rw [ht] at he
    obtain ⟨p, hp, hep⟩ := List.mem_flatMap.mp he
    obtain ⟨t, htl, hte⟩ := List.mem_map.mp hep
    refine ⟨p.2, ?_, ?_⟩
    · rw [← hte]
      exact hp
    · rw [← hte]
      exact htl
  · intro e he
    rw [hr] at he
    obtain ⟨p, hp, hep⟩ := List.mem_flatMap.mp he
    obtain ⟨t, htl, hte⟩ := List.mem_map.mp hep
    refine ⟨p.2, ?_, ?_⟩
    · rw [← hte]
      exact hp
    · rw [← hte]
      exact htl

/-- Worker A exposing 2 tools and worker B exposing 3, both connected. -/
def stA2B3 : ClientState :=
  { initClient defaultConfig with
    servers :=
      [("A", mkServer [] [{ name := "a1", description := "" },
                         { name := "a2", description := "" }] []),
       ("B", mkServer [] [{ name := "b1", description := "" },
                          { name := "b2", description := "" },
                          { name := "b3", description := "" }] [])],
    isConnected := true }

/-- C5 witness: the amended theorem at the concrete A(2)+B(3) client —
the rebuilt catalog is the 5-entry concatenation in registration order,
each entry stamped with its owner, and the ownership clause applied to
the stamped entry for b3 names B as its real owner. -/
theorem aggregate_catalog_all_registered_witness :
    (aggregateToolsAndResources stA2B3).allTools
      = stA2B3.servers.flatMap (fun p => stampTools p.1 p.2.tools)
  ∧ (aggregateToolsAndResources stA2B3).allTools.length = 5
  ∧ (aggregateToolsAndResources stA2B3).allTools
      = [("A", { name := "a1", description := "" }), ("A", { name := "a2", description := "" }),
         ("B", { name := "b1", description := "" }), ("B", { name := "b2", description := "" }),
         ("B", { name := "b3", description := "" })]
  ∧ ∃ s, ("B", s) ∈ stA2B3.servers ∧ ({ name := "b3", description := "" } : Tool) ∈ s.tools := by
  refine ⟨(aggregate_catalog_all_registered stA2B3).1, ?_, by decide, ?_⟩
  · rw [(aggregate_catalog_all_registered stA2B3).2.2.1]
    decide
  · exact (aggregate_catalog_all_registered stA2B3).2.2.2.1
      ("B", { name := "b3", description := "" }) (by decide)

/-! ## C6: exit handling and reconnect backoff -/

/-- C6: when worker `name`'s process exits, the worker is marked
disconnected; if `config.autoReconnect` is set and the worker's attempt
counter is strictly below its configured maximum, exactly one reconnect is
scheduled, after `reconnectDelay * attemptNumber` ms where the attempt
number is the just-incremented counter (linear backoff), and the counter
is incremented; if the counter has reached the maximum, or auto-reconnect
is off, no reconnect is scheduled and the worker stays disconnected; and
the success path of a (re)connect stores the handshake catalogs, marks the
worker connected and resets its attempt counter to zero. -/
theorem reconnect_policy_spec (st : ClientState) (name : String) (s : ServerEntry)
    (hs : lookupSrv name st.servers = some s) :
    (st.config.autoReconnect = true → s.reconnectAttempts < s.optMaxReconnectAttempts →
        (handleExit st name).2 = some (st.config.reconnectDelay * (s.reconnectAttempts + 1))
      ∧ lookupSrv name (handleExit st name).1.servers
          = some { s with connected := false, reconnectAttempts := s.reconnectAttempts + 1 })
  ∧ (¬ s.reconnectAttempts < s.optMaxReconnectAttempts →
        (handleExit st name).2 = none
      ∧ lookupSrv name (handleExit st name).1.servers = some { s with connected := false })
  ∧ (st.config.autoReconnect = false → (handleExit st name).2 = none)
  ∧ ∀ tools res, lookupSrv name (finishConnect st name tools res).servers
      = some { s with tools := tools, resources := res, connected := true, reconnectAttempts := 0 } := by
  have hpos : ∀ hc : st.config.autoReconnect = true ∧
      s.reconnectAttempts < s.optMaxReconnectAttempts,
      handleExit st name =
        (updateSrv name (fun q => { q with reconnectAttempts := q.reconnectAttempts + 1 })
          (setHealth name false
            (updateSrv name (fun q => { q with connected := false }) st)),
         some (st.config.reconnectDelay * (s.reconnectAttempts + 1))) := by
    intro hc
    unfold handleExit
    rw [hs]
    dsimp only
    rw [if_pos hc]
  have hneg : ∀ _ : ¬ (st.config.autoReconnect = true ∧
      s.reconnectAttempts < s.optMaxReconnectAttempts),
      handleExit st name =
        (setHealth name false (updateSrv name (fun q => { q with connected := false }) st),
         none) := by
    intro hc
    unfold handleExit
    rw [hs]
    dsimp only
    rw [if_neg hc]
  refine ⟨?_, ?_, ?_, ?_⟩
  · intro ha hlt
    have he := hpos ⟨ha, hlt⟩
    constructor
    · rw [congrArg Prod.snd he]
    · have hsv : (handleExit st name).1.servers
          = updateEntry name (fun q => { q with reconnectAttempts := q.reconnectAttempts + 1 })
              (updateEntry name (fun q => { q with connected := false }) st.servers) := by
        rw [congrArg Prod.fst he]
        rfl
      rw [hsv, lookupSrv_updateEntry_self, lookupSrv_updateEntry_self, hs]
      rfl
  · intro hnlt
    have he := hneg (fun h => hnlt h.2)
    constructor
    · rw [congrArg Prod.snd he]
    · have hsv : (handleExit st name).1.servers
          = updateEntry name (fun q => { q with connected := false }) st.servers := by
        rw [congrArg Prod.fst he]
        rfl
      rw [hsv, lookupSrv_updateEntry_self, hs]
      rfl
  · intro hfa
    have he := hneg (fun h => by rw [hfa] at h; exact absurd h.1 (by simp))
    rw [congrArg Prod.snd he]
  · intro tools res
    show lookupSrv name (updateEntry name _ st.servers) = _
    rw [lookupSrv_updateEntry_self, hs]
    rfl

/-- A client with auto-reconnect on, worker A connected with zero
reconnect attempts so far. -/
def stC6 : ClientState :=
  { initClient { defaultConfig with autoReconnect := true } with
    servers := [("A", mkServer [] [] [])],
    isConnected := true }

/-- C6 witness: with autoReconnect on, attempts 0 < max 3, one exit of A
schedules exactly one reconnect after reconnectDelay * 1 = 1000 ms and
bumps the counter to 1; the success path resets it to 0. -/
theorem reconnect_policy_spec_witness :
    (handleExit stC6 "A").2 = some 1000
  ∧ lookupSrv "A" (handleExit stC6 "A").1.servers
      = some { mkServer [] [] [] with connected := false, reconnectAttempts := 1 }
  ∧ lookupSrv "A" (finishConnect stC6 "A" [] []).servers
      = some { mkServer [] [] [] with connected := true, reconnectAttempts := 0 } := by
  have h := reconnect_policy_spec stC6 "A" (mkServer [] [] []) rfl
  have h1 := h.1 rfl (by decide)
  exact ⟨h1.1, h1.2, h.2.2.2 [] []⟩

/-! ## C7: latency metrics -/

/-- The metrics-touching steps of request lifecycles, as the source
performs them. -/
inductive MOp where
  | send : MOp
  | success (latency : ℚ) : MOp
  | timerFail : MOp
  | catchFail : MOp

/-- Apply one step: `send` is the `totalRequests++` at issue time,
`success` the `.then` continuation (`settleSuccess`), `timerFail` the
increment inside the timeout timer, `catchFail` the `.catch`
continuation (both `settleFailure`). -/
def applyMOp (m : Metrics) : MOp → Metrics
  | MOp.send => { m with totalRequests := m.totalRequests + 1 }
  | MOp.success latency => settleSuccess m latency
  | MOp.timerFail => settleFailure m
  | MOp.catchFail => settleFailure m

/-- The metrics after an arbitrary interleaving of request steps, starting
from the constructor's metrics. -/
def runMetrics (ops : List MOp) : Metrics :=
  ops.foldl applyMOp initialMetrics

/-- The C7 invariant: one recorded latency per successful request, and the
rolling average is exactly the arithmetic mean of all recorded latencies
(0 before any success, as initialised). -/
def MetricsInv (m : Metrics) : Prop :=
  m.responseTimes.length = m.successfulRequests
  ∧ m.averageResponseTime =
      (if m.responseTimes = [] then 0
       else m.responseTimes.foldl (· + ·) 0 / (m.responseTimes.length : ℚ))

theorem metricsInv_step (m : Metrics) (op : MOp) (h : MetricsInv m) :
    MetricsInv (applyMOp m op) := by
  obtain ⟨h1, h2⟩ := h
  cases op with
  | send => exact ⟨h1, h2⟩
  | timerFail => exact ⟨h1, h2⟩
  | catchFail => exact ⟨h1, h2⟩
  | success latency =>
    have hne : (settleSuccess m latency).responseTimes ≠ [] := by
      show m.responseTimes ++ [latency] ≠ []
      intro hc
      simpa using congrArg List.length hc
    constructor
    · show (m.responseTimes ++ [latency]).length = m.successfulRequests + 1
      simp [List.length_append, h1]
    · show (settleSuccess m latency).averageResponseTime =
        (if (settleSuccess m latency).responseTimes = [] then 0
         else (settleSuccess m latency).responseTimes.foldl (· + ·) 0
           / ((settleSuccess m latency).responseTimes.length : ℚ))
      rw [if_neg hne]
      rfl

theorem metricsInv_foldl (ops : List MOp) (m : Metrics) (h : MetricsInv m) :
    MetricsInv (ops.foldl applyMOp m) := by
  induction ops generalizing m with
  | nil => exact h
  | cons op rest ih => exact ih (applyMOp m op) (metricsInv_step m op h)

/-- C7: after any interleaving of request-lifecycle steps, the
`responseTimes` sequence holds exactly one observed latency per successful
request (its length equals `successfulRequests`; failed requests append
nothing), and `averageResponseTime` is exactly the arithmetic mean of all
entries recorded since construction (and 0 while none has been); in
particular ten successful requests of latency 100 each leave it exactly
100. -/
theorem metrics_latency_spec (ops : List MOp) :
    (runMetrics ops).responseTimes.length = (runMetrics ops).successfulRequests
  ∧ (runMetrics ops).averageResponseTime =
      (if (runMetrics ops).responseTimes = [] then 0
       else (runMetrics ops).responseTimes.foldl (· + ·) 0
              / ((runMetrics ops).responseTimes.length : ℚ))
  ∧ (runMetrics (List.replicate 10 (MOp.success 100))).averageResponseTime = 100 := by
  have hinit : MetricsInv initialMetrics := ⟨rfl, by simp [initialMetrics]⟩
  have h := metricsInv_foldl ops initialMetrics hinit
  have h10 := metricsInv_foldl (List.replicate 10 (MOp.success 100)) initialMetrics hinit
  refine ⟨h.1, h.2, ?_⟩
  show (List.foldl applyMOp initialMetrics
    (List.replicate 10 (MOp.success 100))).averageResponseTime = 100
  rw [h10.2]
  have hr : (List.foldl applyMOp initialMetrics
      (List.replicate 10 (MOp.success 100))).responseTimes = List.replicate 10 (100 : ℚ) := rfl
  rw [hr, if_neg (by simp)]
  norm_num [List.replicate, List.foldl]

/-! ## C8: fail-fast on unknown or disconnected workers -/

/-- C8: every request-issuing call naming a worker that was never
registered returns the `serverNotFound` (UnknownWorker) error with the
client state completely unchanged — nothing written to any process, no
process spawned, no pending entry added, no metric touched — and this
holds for `callTool`, `readResource` and `sendRequestToServer` whatever
the handshake flag; naming a registered worker whose connected flag is
false fails the same way with `notConnected` for every call made without
the handshake exemption; only a call with `skipConnectionCheck = true`
(the two handshake requests) may reach a not-yet-connected worker, and it
then proceeds to allocate an id and write. -/
theorem failfast_guard_spec (st : ClientState) (name method : String) (sk : Bool) :
    (lookupSrv name st.servers = none →
        sendRequestToServer st name method sk
          = (st, Except.error (SendErr.serverNotFound name))
      ∧ callTool st name method = (st, Except.error (SendErr.serverNotFound name))
      ∧ readResource st name method = (st, Except.error (SendErr.serverNotFound name)))
  ∧ (∀ s, lookupSrv name st.servers = some s → s.connected = false →
        sendRequestToServer st name method false
          = (st, Except.error (SendErr.notConnected name))
      ∧ callTool st name method = (st, Except.error (SendErr.notConnected name))
      ∧ readResource st name method = (st, Except.error (SendErr.notConnected name)))
  ∧ (∀ s, lookupSrv name st.servers = some s → s.connected = false →
      s.proc = ProcState.running →
        (sendRequestToServer st name method true).2 = Except.ok st.messageId) := by
  have base : ∀ (mth : String) (sk2 : Bool), lookupSrv name st.servers = none →
      sendRequestToServer st name mth sk2
        = (st, Except.error (SendErr.serverNotFound name)) := by
    intro mth sk2 h
    unfold sendRequestToServer
    rw [h]
  have basenc : ∀ (mth : String) (s : ServerEntry), lookupSrv name st.servers = some s →
      s.connected = false →
      sendRequestToServer st name mth false
        = (st, Except.error (SendErr.notConnected name)) := by
    intro mth s h hc
    unfold sendRequestToServer
    rw [h]
    dsimp only
    rw [if_pos (by rw [hc]; rfl)]
  refine ⟨?_, ?_, ?_⟩
  · intro h
    exact ⟨base method sk h, base "tools/call" false h, base "resources/read" false h⟩
  · intro s h hc
    exact ⟨basenc method s h hc, basenc "tools/call" s h hc, basenc "resources/read" s h hc⟩
  · intro s h hc hp
    unfold sendRequestToServer
    rw [h]
    dsimp only
    rw [if_neg (by simp)]
    rw [if_neg (by rw [hp]; simp)]

/-- A client with worker D registered, its process running, but not yet
connected (mid-startup). -/
def stC8 : ClientState :=
  { initClient defaultConfig with
    servers := [("D", { mkServer [] [] [] with connected := false })] }

/-- C8 witness: naming the unregistered worker "X" fails with
`serverNotFound` and leaves the state untouched; naming the registered but
not-yet-connected worker "D" fails with `notConnected`; a handshake call
to "D" with the connected-check skipped proceeds. -/
theorem failfast_guard_spec_witness :
    callTool stC8 "X" "get_current_time"
      = (stC8, Except.error (SendErr.serverNotFound "X"))
  ∧ callTool stC8 "D" "get_current_time"
      = (stC8, Except.error (SendErr.notConnected "D"))
  ∧ (sendRequestToServer stC8 "D" "tools/list" true).2 = Except.ok 1 := by
  refine ⟨((failfast_guard_spec stC8 "X" "get_current_time" false).1 rfl).2.1,
    ((failfast_guard_spec stC8 "D" "get_current_time" false).2.1
      { mkServer [] [] [] with connected := false } rfl rfl).2.1,
    (failfast_guard_spec stC8 "D" "tools/list" true).2.2
      { mkServer [] [] [] with connected := false } rfl rfl rfl⟩

/-! ## C9: stdout chunk handling -/

/-- A well-formed single response line carrying id 1. -/
def lineA : String := "\x7b\"jsonrpc\":\"2.0\",\"id\":1,\"result\":7\x7d"

/-- A well-formed single response line carrying id 2. -/
def lineB2 : String := "\x7b\"jsonrpc\":\"2.0\",\"id\":2,\"result\":8\x7d"

/-- One stdout chunk carrying BOTH complete response lines, newline
separated — exactly what a worker that answered two requests
back-to-back can produce in one data event. -/
def chunkTwoLines : String := lineA ++ "\n" ++ lineB2

/-- A client connected to worker A with requests 1 and 2 pending. -/
def stC9 : ClientState :=
  { initClient defaultConfig with
    servers := [("A", mkServer [1, 2] [] [])],
    isConnected := true }

/-- C9 (counterexample): the source stdout handler does NOT buffer and
split on line boundaries — it feeds the whole chunk to one `JSON.parse`.
On a chunk made of two complete, individually decodable response lines,
the parse fails, a non-fatal error event is emitted, and BOTH requests
stay pending; the spec's line-splitting handler on the same chunk would
have resolved both.  This refutes the claim that each complete line is
decoded independently and delivered to the matcher. -/
theorem stdout_no_line_split_cex :
    (parseJsonList (trimChars lineA.data)).isSome = true
  ∧ (parseJsonList (trimChars lineB2.data)).isSome = true
  ∧ (lookupSrv "A" (handleStdoutChunk stC9 "A" chunkTwoLines).1.servers).map
      ServerEntry.pendingRequests = some [1, 2]
  ∧ (handleStdoutChunk stC9 "A" chunkTwoLines).2 = [WEvent.errorEvent "A"]
  ∧ (lookupSrv "A" (specLineSplitHandler stC9 "A" chunkTwoLines).1.servers).map
      ServerEntry.pendingRequests = some []
  ∧ (specLineSplitHandler stC9 "A" chunkTwoLines).2
      = [WEvent.resolved "A" 1, WEvent.resolved "A" 2] :=
  ⟨rfl, rfl, rfl, rfl, rfl, rfl⟩

/-- C9 (amended): the stdout handler trims the arriving chunk and decodes
it as a single JSON document (no buffering, no line splitting).  A chunk
that decodes to a message whose id matches a pending request of that
worker resolves exactly that request and removes exactly its entry; a
decoded message whose id matches nothing is silently discarded; and any
chunk that fails to decode — including one carrying several
newline-separated messages — is reported as a non-fatal worker `error`
event and discarded, with the whole client state unchanged: no pending
request of this or any other worker is removed, failed or stalled, and
the supervisor (a total function) does not crash. -/
theorem stdout_chunk_behavior (st : ClientState) (name : String) (s : ServerEntry)
    (chunk : String) (hs : lookupSrv name st.servers = some s) :
    (parseJsonList (trimChars chunk.data) = none →
        handleStdoutChunk st name chunk = (st, [WEvent.errorEvent name]))
  ∧ (∀ r id, parseJsonList (trimChars chunk.data) = some r → jsonId r = some id →
      id ∈ s.pendingRequests →
        handleStdoutChunk st name chunk =
          (updateSrv name
            (fun q => { q with pendingRequests := pendingDelete q.pendingRequests id }) st,
           [WEvent.resolved name id]))
  ∧ (∀ r id, parseJsonList (trimChars chunk.data) = some r → jsonId r = some id →
      id ∉ s.pendingRequests → handleStdoutChunk st name chunk = (st, []))
  ∧ (∀ r, parseJsonList (trimChars chunk.data) = some r → jsonId r = none →
      handleStdoutChunk st name chunk = (st, [])) := by
  refine ⟨?_, ?_, ?_, ?_⟩
  · intro h
    unfold handleStdoutChunk
    rw [h]
  · intro r id hp hj hid
    unfold handleStdoutChunk
    rw [hp]
    dsimp only
    unfold deliverResponse
    rw [hs]
    dsimp only
    rw [hj]
    dsimp only
    rw [if_pos hid]
  · intro r id hp hj hid
    unfold handleStdoutChunk
    rw [hp]
    dsimp only
    unfold deliverResponse
    rw [hs]
    dsimp only
    rw [hj]
    dsimp only
    rw [if_neg hid]
  · intro r hp hj
    unfold handleStdoutChunk
    rw [hp]
    dsimp only
    unfold deliverResponse
    rw [hs]
    dsimp only
    rw [hj]

/-- C9 witness: the amended theorem applied to `stC9`: an undecodable
chunk produces exactly the non-fatal error event and leaves the state
unchanged, and a chunk holding exactly the single response line for id 1
resolves exactly request 1. -/
theorem stdout_chunk_behavior_witness :
    handleStdoutChunk stC9 "A" "oops" = (stC9, [WEvent.errorEvent "A"])
  ∧ handleStdoutChunk stC9 "A" lineA =
      (updateSrv "A"
        (fun q => { q with pendingRequests := pendingDelete q.pendingRequests 1 }) stC9,
       [WEvent.resolved "A" 1]) := by
  refine ⟨(stdout_chunk_behavior stC9 "A" (mkServer [1, 2] [] []) "oops" rfl).1 rfl, ?_⟩
  exact (stdout_chunk_behavior stC9 "A" (mkServer [1, 2] [] []) lineA rfl).2.1
    (Json.obj [("jsonrpc", Json.str "2.0"), ("id", Json.num 1), ("result", Json.num 7)])
    1 rfl rfl (by decide)

/-! ## C10: owner lookup by tool name / resource URI -/

theorem findToolServerAux_some (toolName : String) (l : List (String × ServerEntry))
    (w : String) (h : findToolServerAux toolName l = some w) :
    ∃ l₁ s l₂, l = l₁ ++ (w, s) :: l₂
      ∧ s.tools.any (fun t => t.name = toolName) = true
      ∧ ∀ p ∈ l₁, p.2.tools.any (fun t => t.name = toolName) = false := by
  induction l with
  | nil => simp [findToolServerAux] at h
  | cons p rest ih =>
    obtain ⟨k, v⟩ := p
    by_cases hc : v.tools.any (fun t => t.name = toolName) = true
    · have hkw : some k = some w := by simpa [findToolServerAux, hc] using h
      obtain rfl : k = w := Option.some.inj hkw
      exact ⟨[], v, rest, rfl, hc, by simp⟩
    · have h2 : findToolServerAux toolName rest = some w := by
        simpa [findToolServerAux, hc] using h
      obtain ⟨l₁, s, l₂, he, hsome, hall⟩ := ih h2
      refine ⟨(k, v) :: l₁, s, l₂, by rw [he]; rfl, hsome, ?_⟩
      intro q hq
      rcases List.mem_cons.mp hq with rfl | hq
      · simpa using hc
      · exact hall q hq

theorem findToolServerAux_none (toolName : String) (l : List (String × ServerEntry))
    (h : findToolServerAux toolName l = none) :
    ∀ p ∈ l, p.2.tools.any (fun t => t.name = toolName) = false := by
  induction l with
  | nil => simp
  | cons p rest ih =>
    obtain ⟨k, v⟩ := p
    by_cases hc : v.tools.any (fun t => t.name = toolName) = true
    · simp [findToolServerAux, hc] at h
    · have h2 : findToolServerAux toolName rest = none := by
        simpa [findToolServerAux, hc] using h
      intro q hq
      rcases List.mem_cons.mp hq with rfl | hq
      · simpa using hc
      · exact ih h2 q hq

theorem findResourceServerAux_some (uri : String) (l : List (String × ServerEntry))
    (w : String) (h : findResourceServerAux uri l = some w) :
    ∃ l₁ s l₂, l = l₁ ++ (w, s) :: l₂
      ∧ s.resources.any (fun r => r.uri = uri) = true
      ∧ ∀ p ∈ l₁, p.2.resources.any (fun r => r.uri = uri) = false := by
  induction l with
  | nil => simp [findResourceServerAux] at h
  | cons p rest ih =>
    obtain ⟨k, v⟩ := p
    by_cases hc : v.resources.any (fun r => r.uri = uri) = true
    · have hkw : some k = some w := by simpa [findResourceServerAux, hc] using h
      obtain rfl : k = w := Option.some.inj hkw
      exact ⟨[], v, rest, rfl, hc, by simp⟩
    · have h2 : findResourceServerAux uri rest = some w := by
        simpa [findResourceServerAux, hc] using h
      obtain ⟨l₁, s, l₂, he, hsome, hall⟩ := ih h2
      refine ⟨(k, v) :: l₁, s, l₂, by rw [he]; rfl, hsome, ?_⟩
      intro q hq
      rcases List.mem_cons.mp hq with rfl | hq
      · simpa using hc
      · exact hall q hq

theorem findResourceServerAux_none (uri : String) (l : List (String × ServerEntry))
    (h : findResourceServerAux uri l = none) :
    ∀ p ∈ l, p.2.resources.any (fun r => r.uri = uri) = false := by
  induction l with
  | nil => simp
  | cons p rest ih =>
    obtain ⟨k, v⟩ := p
    by_cases hc : v.resources.any (fun r => r.uri = uri) = true
    · simp [findResourceServerAux, hc] at h
    · have h2 : findResourceServerAux uri rest = none := by
        simpa [findResourceServerAux, hc] using h
      intro q hq
      rcases List.mem_cons.mp hq with rfl | hq
      · simpa using hc
      · exact ih h2 q hq

/-- C10: `findToolServer` returns the earliest-registered worker whose
tool list holds an entry with exactly the requested name — the servers
map splits as earlier workers (none of which has the tool), the returned
worker (which has it), and the rest — and `none` (null) exactly when no
registered worker has such a tool; so with duplicate tool names,
registration order decides the owner.  `findResourceServer` behaves the
same way on resource URIs. -/
theorem find_owner_registration_order (st : ClientState) (toolName uri : String) :
    (∀ w, findToolServer st toolName = some w →
      ∃ l₁ s l₂, st.servers = l₁ ++ (w, s) :: l₂
        ∧ s.tools.any (fun t => t.name = toolName) = true
        ∧ ∀ p ∈ l₁, p.2.tools.any (fun t => t.name = toolName) = false)
  ∧ (findToolServer st toolName = none →
      ∀ p ∈ st.servers, p.2.tools.any (fun t => t.name = toolName) = false)
  ∧ (∀ w, findResourceServer st uri = some w →
      ∃ l₁ s l₂, st.servers = l₁ ++ (w, s) :: l₂
        ∧ s.resources.any (fun r => r.uri = uri) = true
        ∧ ∀ p ∈ l₁, p.2.resources.any (fun r => r.uri = uri) = false)
  ∧ (findResourceServer st uri = none →
      ∀ p ∈ st.servers, p.2.resources.any (fun r => r.uri = uri) = false) :=
  ⟨fun w h => findToolServerAux_some toolName st.servers w h,
   fun h => findToolServerAux_none toolName st.servers h,
   fun w h => findResourceServerAux_some uri st.servers w h,
   fun h => findResourceServerAux_none uri st.servers h⟩

/-- Workers A and B both exposing a tool named dup; A also holds the only
resource. -/
def stC10 : ClientState :=
  { initClient defaultConfig with
    servers :=
      [("A", mkServer [] [{ name := "dup", description := "" }]
          [{ uri := "file:a", name := "a" }]),
       ("B", mkServer [] [{ name := "dup", description := "" },
          { name := "only-b", description := "" }] [])],
    isConnected := true }

/-- C10 witness: with A and B both exposing a tool named dup, lookup
returns the earlier-registered A together with the ordered split, and a
name nobody has yields none with every worker confirmed tool-less. -/
theorem find_owner_registration_order_witness :
    findToolServer stC10 "dup" = some "A"
  ∧ (∃ l₁ s l₂, stC10.servers = l₁ ++ ("A", s) :: l₂
      ∧ s.tools.any (fun t => t.name = "dup") = true
      ∧ ∀ p ∈ l₁, p.2.tools.any (fun t => t.name = "dup") = false)
  ∧ findResourceServer stC10 "file:a" = some "A"
  ∧ (∀ p ∈ stC10.servers, p.2.tools.any (fun t => t.name = "zzz") = false) := by
  refine ⟨rfl, (find_owner_registration_order stC10 "dup" "u").1 "A" rfl, rfl, ?_⟩
  exact (find_owner_registration_order stC10 "zzz" "u").2.1 rfl
